import Mathlib

/-!
# Verification of the Studiums-Dashboard domain model and persistence layer

Shallow embedding of `models.py` and `database.py` of the
Studiums-Dashboard repository. Python floats carrying grades are
modelled as exact rationals (all comparisons in the source are order
comparisons on decimal literals, which ℚ represents exactly), Python
ints as ℤ, Python `datetime` values either as calendar dates
(`Datum`, for semester generation which manipulates year/month/day)
or as second-granularity timestamps (ℤ, for study sessions where only
differences matter). Exceptions are modelled with `Except`/`Option`
or a returned `Option String` carrying the raised message, and the
SQLite store as explicit lists of rows with per-table autoincrement
counters.
-/

namespace Dashboard

/-- Enum `Status` from models.py. -/
inductive Status where
  | OFFEN : Status
  | BESTANDEN : Status
  | NICHT_BESTANDEN : Status
deriving DecidableEq, Repr

/-- The `.value` string of a `Status`, as stored in the database. -/
def Status.value : Status → String
  | .OFFEN => "OFFEN"
  | .BESTANDEN => "BESTANDEN"
  | .NICHT_BESTANDEN => "NICHT_BESTANDEN"

/-- Lookup `Status(s)` on a stored string; `none` models the
`ValueError` Python raises on an unknown tag. -/
def Status.fromValue : String → Option Status
  | "OFFEN" => some .OFFEN
  | "BESTANDEN" => some .BESTANDEN
  | "NICHT_BESTANDEN" => some .NICHT_BESTANDEN
  | _ => none

/-- Message of the `ValueError` raised by the `note` property setter. -/
def noteFehler : String := "Note muss zwischen 1.0 und 5.0 liegen."

/-- Message of the `ValueError` raised by `Modul.neue_pruefungsleistung`
when three attempts already exist. -/
def kapazitaetFehler : String := "Maximal 3 Versuche erlaubt."

/-- Class `Pruefungsleistung` from models.py: one exam attempt. -/
structure Pruefungsleistung where
  note : ℚ
  versuchs_nummer : ℤ
  id : Option ℤ
deriving DecidableEq, Repr

/-- The `Pruefungsleistung.__init__` constructor: assigns the note through
the validating property setter, so construction fails (raises `ValueError`)
when the note is outside [1.0, 5.0]. -/
def Pruefungsleistung.neu (note : ℚ) (versuchs_nummer : ℤ) :
    Except String Pruefungsleistung :=
  if 1 ≤ note ∧ note ≤ 5 then
    .ok { note := note, versuchs_nummer := versuchs_nummer, id := none }
  else .error noteFehler

/-- The `note` property setter: re-validates; on failure the object is
unchanged (first component) and the `ValueError` message is returned. -/
def Pruefungsleistung.setze_note (pl : Pruefungsleistung) (wert : ℚ) :
    Pruefungsleistung × Option String :=
  if 1 ≤ wert ∧ wert ≤ 5 then ({ pl with note := wert }, none)
  else (pl, some noteFehler)

/-- Method `Pruefungsleistung.ist_bestanden`: the attempt passes iff note ≤ 4.0. -/
def Pruefungsleistung.ist_bestanden (pl : Pruefungsleistung) : Bool :=
  pl.note ≤ 4

/-- Class `Modul` from models.py. -/
structure Modul where
  titel : String
  ects : ℤ
  status : Status
  geplantes_semester : ℤ
  pruefungsleistungen : List Pruefungsleistung
  id : Option ℤ
deriving DecidableEq, Repr

/-- Method `Modul.aktualisiere_status`: recompute the status from the attempt
list (no attempts → OFFEN; last passing → BESTANDEN; ≥ 3 attempts →
NICHT_BESTANDEN; otherwise OFFEN). -/
def Modul.aktualisiere_status (m : Modul) : Modul :=
  { m with status :=
      match m.pruefungsleistungen.getLast? with
      | none => Status.OFFEN
      | some letzte =>
          if letzte.ist_bestanden then Status.BESTANDEN
          else if 3 ≤ m.pruefungsleistungen.length then Status.NICHT_BESTANDEN
          else Status.OFFEN }

/-- Method `Modul.neue_pruefungsleistung`: raises (message in the second
component, module unchanged) when 3 attempts exist or the note is invalid;
otherwise appends an attempt numbered `count + 1` and recomputes status. -/
def Modul.neue_pruefungsleistung (m : Modul) (note : ℚ) :
    Modul × Option String :=
  if 3 ≤ m.pruefungsleistungen.length then (m, some kapazitaetFehler)
  else
    match Pruefungsleistung.neu note (m.pruefungsleistungen.length + 1) with
    | .error e => (m, some e)
    | .ok leistung =>
        (Modul.aktualisiere_status
          { m with pruefungsleistungen := m.pruefungsleistungen ++ [leistung] },
         none)

/-- Method `Modul.ist_bestanden`: the module is passed iff its status is BESTANDEN. -/
def Modul.ist_bestanden (m : Modul) : Bool :=
  m.status = Status.BESTANDEN

/-- Class `Lerntermin` from models.py: a planned study session. Timestamps are
modelled as seconds (ℤ); only differences and equality matter here. -/
structure Lerntermin where
  datum : ℤ
  start_zeit : ℤ
  geplante_dauer : ℤ
  beschreibung : String
  modul_id : Option ℤ
  id : Option ℤ
deriving DecidableEq, Repr

/-- Class `Lernsession` from models.py: a completed study session. -/
structure Lernsession where
  datum : ℤ
  start_zeit : ℤ
  end_zeit : ℤ
  tatsaechliche_dauer : ℤ
  modul_id : Option ℤ
  id : Option ℤ
deriving DecidableEq, Repr

/-- Computation of `Lernsession._berechne_dauer` from given fields:
`int((end_zeit - start_zeit).total_seconds() / 60)`. Python `int()`
truncates toward zero, which on whole-second differences is `Int.tdiv`. -/
def berechneDauer (start_zeit end_zeit : ℤ) : ℤ :=
  (end_zeit - start_zeit).tdiv 60

/-- Method `Lernsession._berechne_dauer` on a session object. -/
def Lernsession.berechne_dauer (s : Lernsession) : ℤ :=
  berechneDauer s.start_zeit s.end_zeit

/-- Constructor `Lernsession.__init__`: stores the fields and derives
`tatsaechliche_dauer` once, at construction. -/
def Lernsession.neu (datum start_zeit end_zeit : ℤ) (modul_id : Option ℤ) :
    Lernsession :=
  { datum := datum, start_zeit := start_zeit, end_zeit := end_zeit,
    tatsaechliche_dauer := berechneDauer start_zeit end_zeit,
    modul_id := modul_id, id := none }

/-- Method `Lernsession.dauer`: returns the stored duration. -/
def Lernsession.dauer (s : Lernsession) : ℤ :=
  s.tatsaechliche_dauer

/-- Plain attribute assignment `session.start_zeit = t` (Python records
the new value; no other field is touched). -/
def Lernsession.set_start_zeit (s : Lernsession) (t : ℤ) : Lernsession :=
  { s with start_zeit := t }

/-- Plain attribute assignment `session.end_zeit = t`. -/
def Lernsession.set_end_zeit (s : Lernsession) (t : ℤ) : Lernsession :=
  { s with end_zeit := t }

/-- A `ZeitEintrag` is at runtime either a `Lerntermin` or a `Lernsession`
(the Python base class is abstract). -/
inductive ZeitEintrag where
  | termin : Lerntermin → ZeitEintrag
  | session : Lernsession → ZeitEintrag
deriving DecidableEq, Repr

/-- Dynamic dispatch of `dauer()`: planned duration for a Lerntermin,
stored actual duration for a Lernsession. -/
def ZeitEintrag.dauer : ZeitEintrag → ℤ
  | .termin t => t.geplante_dauer
  | .session s => s.dauer

/-- The shared `modul_id` attribute of a time entry. -/
def ZeitEintrag.modul_id : ZeitEintrag → Option ℤ
  | .termin t => t.modul_id
  | .session s => s.modul_id

/-- Method `Modul.berechne_aufwand`: accumulates `dauer()` over the entries whose
`modul_id` equals this module's `id` (Python `==`, where `None == None`). -/
def Modul.berechne_aufwand (m : Modul) (sessions : List ZeitEintrag) : ℤ :=
  sessions.foldl
    (fun gesamt s => if s.modul_id = m.id then gesamt + s.dauer else gesamt) 0

/-- A calendar date, the part of a Python `datetime` that semester
generation manipulates (the UI constructs these at midnight). -/
structure Datum where
  year : ℤ
  month : ℤ
  day : ℤ
deriving DecidableEq, Repr

/-- Leap-year test of the Gregorian calendar, as in Python's `datetime`. -/
def istSchaltjahr (y : ℤ) : Bool :=
  y % 4 = 0 ∧ (y % 100 ≠ 0 ∨ y % 400 = 0)

/-- Days in a month, as validated by Python's `datetime`. -/
def tageImMonat (y m : ℤ) : ℤ :=
  if m = 2 then (if istSchaltjahr y then 29 else 28)
  else if m = 4 ∨ m = 6 ∨ m = 9 ∨ m = 11 then 30
  else 31

/-- Validity of a date, exactly the checks of the `datetime` constructor
(MINYEAR = 1, MAXYEAR = 9999). -/
def Datum.gueltig (d : Datum) : Prop :=
  1 ≤ d.year ∧ d.year ≤ 9999 ∧ 1 ≤ d.month ∧ d.month ≤ 12 ∧
    1 ≤ d.day ∧ d.day ≤ tageImMonat d.year d.month

instance (d : Datum) : Decidable d.gueltig := by
  unfold Datum.gueltig; infer_instance

/-- Model of `datetime.replace(year=jahr, month=monat)`: keeps the day, re-runs the
constructor validation, raising `ValueError` (the message) on failure. -/
def Datum.replaceJM (d : Datum) (jahr monat : ℤ) : Except String Datum :=
  if ¬ (1 ≤ jahr ∧ jahr ≤ 9999) then .error "year is out of range"
  else if ¬ (1 ≤ monat ∧ monat ≤ 12) then .error "month must be in 1..12"
  else if ¬ (1 ≤ d.day ∧ d.day ≤ tageImMonat jahr monat) then
    .error "day is out of range for month"
  else .ok ⟨jahr, monat, d.day⟩

/-- Model of `naechster_start - timedelta(days=1)` on a valid date. -/
def Datum.vortag (d : Datum) : Datum :=
  if 1 < d.day then ⟨d.year, d.month, d.day - 1⟩
  else if 1 < d.month then ⟨d.year, d.month - 1, tageImMonat d.year (d.month - 1)⟩
  else ⟨d.year - 1, 12, 31⟩

/-- Fuelled body of the `while monat > 12: monat -= 12; jahr += 1` loop
of `Studiengang.generiere_semester` (structural recursion keeps the
definition kernel-reducible; the fuel bounds the iteration count). -/
def rolloverJahrAux : ℕ → ℤ → ℤ → ℤ × ℤ
  | 0, jahr, monat => (jahr, monat)
  | fuel + 1, jahr, monat =>
      if 12 < monat then rolloverJahrAux fuel (jahr + 1) (monat - 12)
      else (jahr, monat)

/-- Rollover loop of `Studiengang.generiere_semester`: while the month
exceeds 12, subtract 12 and advance the year (`monat.toNat` exceeds the
number of iterations, so the fuel never runs out with the guard true). -/
def rolloverJahr (jahr monat : ℤ) : ℤ × ℤ :=
  rolloverJahrAux monat.toNat jahr monat

/-- Class `Semester` from models.py. -/
structure Semester where
  nummer : ℤ
  start_datum : Datum
  end_datum : Datum
  id : Option ℤ
deriving DecidableEq, Repr

/-- Floor of a rational (numerator Euclidean-divided by the positive
denominator), kept explicit so that evaluation stays kernel-reducible. -/
def ratFloor (q : ℚ) : ℤ :=
  q.num / (q.den : ℤ)

/-- Python `round` on an exact rational: round half to even. The
fractional part of `q` is `zaehlerRest / den`, so comparing it with 1/2
amounts to comparing `2 * zaehlerRest` with the (positive) denominator;
this keeps the whole computation in ℤ and kernel-reducible. -/
def roundHalfEven (q : ℚ) : ℤ :=
  let unten := ratFloor q
  let zaehlerRest := q.num - unten * (q.den : ℤ)
  if 2 * zaehlerRest < (q.den : ℤ) then unten
  else if (q.den : ℤ) < 2 * zaehlerRest then unten + 1
  else if unten % 2 = 0 then unten else unten + 1

/-- Python `round(q, 2)` on an exact rational. -/
def pyRound2 (q : ℚ) : ℚ :=
  (roundHalfEven (q * 100) : ℚ) / 100

/-- Method `Semester.berechne_notendurchschnitt`: collect the last note of every
passed module planned for this semester (skipping modules with an empty
attempt list), then return the rounded mean, or 0.0 when none. -/
def Semester.berechne_notendurchschnitt (sem : Semester) (module : List Modul) :
    ℚ :=
  let noten := module.foldl
    (fun noten m =>
      if m.geplantes_semester = sem.nummer ∧ m.ist_bestanden then
        match m.pruefungsleistungen.getLast? with
        | some pl => noten ++ [pl.note]
        | none => noten
      else noten) []
  if noten = [] then 0 else pyRound2 (noten.sum / noten.length)

/-- Class `Studiengang` from models.py. -/
structure Studiengang where
  name : String
  regelstudienzeit : ℤ
  zielschnitt : ℚ
  semester_liste : List Semester
  module : List Modul
  id : Option ℤ
deriving DecidableEq, Repr

/-- Loop body of `Studiengang.generiere_semester`: given remaining
iterations, the loop index `i` and the running cursor, return the list of
semesters appended from here on and whether the loop finished without a
`ValueError` from `datetime.replace` (on error the partial list built so
far is kept, as the Python exception aborts the loop mid-mutation). -/
def generiereSemesterAux : ℕ → ℤ → Datum → List Semester × Option String
  | 0, _, _ => ([], none)
  | n + 1, i, aktueller_start =>
      let roll := rolloverJahr aktueller_start.year (aktueller_start.month + 6)
      match aktueller_start.replaceJM roll.1 roll.2 with
      | .error e => ([], some e)
      | .ok naechster_start =>
          let rest := generiereSemesterAux n (i + 1) naechster_start
          (⟨i, aktueller_start, naechster_start.vortag, none⟩ :: rest.1, rest.2)

/-- Method `Studiengang.generiere_semester`: resets the semester list, then runs
`regelstudienzeit` iterations of 6-month stepping; second component is the
`ValueError` message when `datetime.replace` failed mid-loop. -/
def Studiengang.generiere_semester (sg : Studiengang) (start_datum : Datum) :
    Studiengang × Option String :=
  let erg := generiereSemesterAux sg.regelstudienzeit.toNat 1 start_datum
  ({ sg with semester_liste := erg.1 }, erg.2)

/-! ## The SQLite store of database.py

Each table is a list of rows in insertion order (a plain `SELECT`
returns rowid = insertion order), with a per-table autoincrement
counter; `ORDER BY` is modelled by an insertion sort on the key.
Dates are stored via `isoformat()`/`fromisoformat`, an exact
round-trip, so rows hold the `Datum` values themselves. -/

/-- Row of table `studiengaenge`. -/
structure SGRow where
  id : ℤ
  name : String
  regelstudienzeit : ℤ
  zielschnitt : ℚ
deriving DecidableEq, Repr

/-- Row of table `semester`. -/
structure SemRow where
  id : ℤ
  nummer : ℤ
  start_datum : Datum
  end_datum : Datum
  studiengang_id : ℤ
deriving DecidableEq, Repr

/-- Row of table `module` (status is stored as its tag string). -/
structure ModRow where
  id : ℤ
  titel : String
  ects : ℤ
  status : String
  geplantes_semester : ℤ
  studiengang_id : ℤ
deriving DecidableEq, Repr

/-- Row of table `pruefungsleistungen`. -/
structure PLRow where
  id : ℤ
  note : ℚ
  versuchs_nummer : ℤ
  modul_id : ℤ
deriving DecidableEq, Repr

/-- The store: the four tables relevant to Program aggregates, with their
autoincrement counters. -/
structure DB where
  studiengaenge : List SGRow
  semester : List SemRow
  module : List ModRow
  pruefungsleistungen : List PLRow
  nextSgId : ℤ
  nextSemId : ℤ
  nextModId : ℤ
  nextPlId : ℤ
deriving DecidableEq, Repr

/-- A freshly created database (tables empty, rowids start at 1). -/
def DB.leer : DB :=
  { studiengaenge := [], semester := [], module := [],
    pruefungsleistungen := [], nextSgId := 1, nextSemId := 1,
    nextModId := 1, nextPlId := 1 }

/-- The semester INSERT loop of `StudiengangRepository.speichern`: each
in-memory semester is inserted and receives `cursor.lastrowid`. -/
def semesterEinfuegen (sgId : ℤ) :
    List Semester → DB → List Semester × DB
  | [], db => ([], db)
  | sem :: rest, db =>
      let zeile : SemRow :=
        ⟨db.nextSemId, sem.nummer, sem.start_datum, sem.end_datum, sgId⟩
      let db' := { db with semester := db.semester ++ [zeile],
                           nextSemId := db.nextSemId + 1 }
      let erg := semesterEinfuegen sgId rest db'
      ({ sem with id := some db.nextSemId } :: erg.1, erg.2)

/-- Method `StudiengangRepository.speichern`: INSERT (assigning the new id) or
UPDATE by id, then DELETE all semester rows of this Studiengang and
re-insert the current in-memory list. -/
def sgRepoSpeichern (sg : Studiengang) (db : DB) : Studiengang × DB :=
  let kopf : ℤ × DB :=
    match sg.id with
    | none =>
        (db.nextSgId,
         { db with
             studiengaenge := db.studiengaenge ++
               [⟨db.nextSgId, sg.name, sg.regelstudienzeit, sg.zielschnitt⟩],
             nextSgId := db.nextSgId + 1 })
    | some i =>
        (i,
         { db with
             studiengaenge := db.studiengaenge.map (fun r =>
               if r.id = i then
                 ⟨i, sg.name, sg.regelstudienzeit, sg.zielschnitt⟩
               else r) })
  let db1 := kopf.2
  let db2 := { db1 with
                 semester := db1.semester.filter
                   (fun r => r.studiengang_id ≠ kopf.1) }
  let erg := semesterEinfuegen kopf.1 sg.semester_liste db2
  ({ sg with id := some kopf.1, semester_liste := erg.1 }, erg.2)

/-- The attempt loop of `ModulRepository.speichern`: only attempts whose
`id` is still `None` are inserted (and get `cursor.lastrowid`); attempts
carrying an id are skipped. -/
def pruefungsleistungenEinfuegen (modId : ℤ) :
    List Pruefungsleistung → DB → List Pruefungsleistung × DB
  | [], db => ([], db)
  | pl :: rest, db =>
      match pl.id with
      | some _ =>
          let erg := pruefungsleistungenEinfuegen modId rest db
          (pl :: erg.1, erg.2)
      | none =>
          let zeile : PLRow := ⟨db.nextPlId, pl.note, pl.versuchs_nummer, modId⟩
          let db' := { db with
                         pruefungsleistungen := db.pruefungsleistungen ++ [zeile],
                         nextPlId := db.nextPlId + 1 }
          let erg := pruefungsleistungenEinfuegen modId rest db'
          ({ pl with id := some db.nextPlId } :: erg.1, erg.2)

/-- Method `ModulRepository.speichern`: INSERT (assigning the new id) or UPDATE
by id (the UPDATE does not touch `studiengang_id`), then insert only the
new attempts. -/
def modulRepoSpeichern (m : Modul) (studiengang_id : ℤ) (db : DB) :
    Modul × DB :=
  let kopf : ℤ × DB :=
    match m.id with
    | none =>
        (db.nextModId,
         { db with
             module := db.module ++
               [⟨db.nextModId, m.titel, m.ects, m.status.value,
                 m.geplantes_semester, studiengang_id⟩],
             nextModId := db.nextModId + 1 })
    | some i =>
        (i,
         { db with
             module := db.module.map (fun r =>
               if r.id = i then
                 { r with titel := m.titel, ects := m.ects,
                          status := m.status.value,
                          geplantes_semester := m.geplantes_semester }
               else r) })
  let erg := pruefungsleistungenEinfuegen kopf.1 m.pruefungsleistungen kopf.2
  ({ m with id := some kopf.1, pruefungsleistungen := erg.1 }, erg.2)

/-- The module loop of `DatenbankManager.speichern`. -/
def moduleSpeichern (sgId : ℤ) : List Modul → DB → List Modul × DB
  | [], db => ([], db)
  | m :: rest, db =>
      let erg := modulRepoSpeichern m sgId db
      let weitere := moduleSpeichern sgId rest erg.2
      (erg.1 :: weitere.1, weitere.2)

/-- Method `DatenbankManager.speichern`: save the Studiengang (with semesters),
then save each module under the now-assigned Studiengang id. -/
def dbSpeichern (sg : Studiengang) (db : DB) : Studiengang × DB :=
  let erg := sgRepoSpeichern sg db
  let mods := moduleSpeichern (erg.1.id.getD 0) erg.1.module erg.2
  ({ erg.1 with module := mods.1 }, mods.2)

/-- Insertion step of the `ORDER BY` model. -/
def fuegeSortiertEin (key : α → ℤ) (a : α) : List α → List α
  | [] => [a]
  | b :: l => if key a ≤ key b then a :: b :: l else b :: fuegeSortiertEin key a l

/-- Model of `ORDER BY key`: a stable insertion sort on the key. -/
def sortiereNach (key : α → ℤ) : List α → List α
  | [] => []
  | a :: l => fuegeSortiertEin key a (sortiereNach key l)

/-- Reconstruction of a `Semester` from its row (`fromisoformat` of an
`isoformat` is the identity). -/
def semAusZeile (r : SemRow) : Semester :=
  { nummer := r.nummer, start_datum := r.start_datum,
    end_datum := r.end_datum, id := some r.id }

/-- Method `StudiengangRepository.laden_alle`: every Studiengang row, with its
semester rows filtered by owner and ordered by `nummer`. -/
def sgRepoLadenAlle (db : DB) : List Studiengang :=
  db.studiengaenge.map (fun r =>
    { name := r.name, regelstudienzeit := r.regelstudienzeit,
      zielschnitt := r.zielschnitt,
      semester_liste :=
        (sortiereNach (·.nummer)
          (db.semester.filter (fun s => s.studiengang_id = r.id))).map
          semAusZeile,
      module := [], id := some r.id })

/-- Reconstruction of a `Pruefungsleistung` from its row: the constructor
re-validates the note, so loading fails on an out-of-range stored note. -/
def plAusZeile (r : PLRow) : Option Pruefungsleistung :=
  match Pruefungsleistung.neu r.note r.versuchs_nummer with
  | .ok pl => some { pl with id := some r.id }
  | .error _ => none

/-- Reconstruction of a `Modul` from its row against the attempt table:
attempts filtered by owner, ordered by `versuchs_nummer`, each re-built
through the validating constructor; the status tag is parsed by the
`Status(...)` enum lookup. -/
def modulAusZeile (db : DB) (r : ModRow) : Option Modul := do
  let status ← Status.fromValue r.status
  let pls ←
    (sortiereNach (·.versuchs_nummer)
      (db.pruefungsleistungen.filter (fun p => p.modul_id = r.id))).mapM
      plAusZeile
  pure { titel := r.titel, ects := r.ects, status := status,
         geplantes_semester := r.geplantes_semester,
         pruefungsleistungen := pls, id := some r.id }

/-- Method `ModulRepository.laden_fuer_studiengang`: module rows filtered by the
owning Studiengang (in rowid order), each with its attempts. -/
def modulLadenFuer (sgId : ℤ) (db : DB) : Option (List Modul) :=
  (db.module.filter (fun r => r.studiengang_id = sgId)).mapM (modulAusZeile db)

/-- The `studiengaenge` component of `DatenbankManager.laden`: all
Studiengaenge with semesters, then the modules of each re-attached. -/
def dbLadenStudiengaenge (db : DB) : Option (List Studiengang) :=
  (sgRepoLadenAlle db).mapM (fun sg =>
    (modulLadenFuer (sg.id.getD 0) db).map (fun ms => { sg with module := ms }))

/-! ## Derived definitions used by the theorems -/

/-- The status rule of spec §4.2 as a pure function of the score
sequence: no attempts → OFFEN; last score passing (≤ 4.0) → BESTANDEN;
otherwise ≥ 3 attempts → NICHT_BESTANDEN; otherwise OFFEN. -/
def statusVonNoten (noten : List ℚ) : Status :=
  match noten.getLast? with
  | none => Status.OFFEN
  | some letzte =>
      if letzte ≤ 4 then Status.BESTANDEN
      else if 3 ≤ noten.length then Status.NICHT_BESTANDEN
      else Status.OFFEN

/-- Constructor `Modul.__init__` with the default status OFFEN and no attempts. -/
def Modul.neuesModul (titel : String) (ects : ℤ) (geplantes_semester : ℤ) :
    Modul :=
  { titel := titel, ects := ects, status := Status.OFFEN,
    geplantes_semester := geplantes_semester,
    pruefungsleistungen := [], id := none }

/-- The module status observed after each `neue_pruefungsleistung` call in
a row (each call applied to the module returned by the previous one). -/
def statusFolge (m : Modul) : List ℚ → List Status
  | [] => []
  | w :: rest =>
      let erg := m.neue_pruefungsleistung w
      erg.1.status :: statusFolge erg.1 rest

/-! ## C1: status recomputation follows the pure rule -/

theorem aktualisiere_status_pls (m : Modul) :
    (m.aktualisiere_status).pruefungsleistungen = m.pruefungsleistungen := rfl

theorem aktualisiere_status_eq (m : Modul) :
    (m.aktualisiere_status).status =
      statusVonNoten (m.pruefungsleistungen.map (·.note)) := by
  unfold Modul.aktualisiere_status statusVonNoten
  rw [List.getLast?_map]
  cases h : m.pruefungsleistungen.getLast? with
  | none => rfl
  | some letzte =>
      simp only [Option.map_some, List.length_map, Pruefungsleistung.ist_bestanden]
      by_cases h4 : letzte.note ≤ 4 <;> simp [h4]

/-- C1: after a status recomputation — hence after every successful
`neue_pruefungsleistung` — the module status is the pure §4.2 function of
its score sequence; the sequence [5, 5, 3] yields the statuses
[OFFEN, OFFEN, BESTANDEN] step by step, and [5, 5, 5] ends
NICHT_BESTANDEN after the third add. -/
theorem C1_statusregel :
    (∀ m : Modul, (m.aktualisiere_status).status =
        statusVonNoten (m.pruefungsleistungen.map (·.note)))
    ∧ (∀ (m : Modul) (w : ℚ) (m' : Modul),
        m.neue_pruefungsleistung w = (m', none) →
        m'.status = statusVonNoten (m'.pruefungsleistungen.map (·.note)))
    ∧ statusFolge (Modul.neuesModul "Mathe" 5 1) [5, 5, 3] =
        [Status.OFFEN, Status.OFFEN, Status.BESTANDEN]
    ∧ statusFolge (Modul.neuesModul "Mathe" 5 1) [5, 5, 5] =
        [Status.OFFEN, Status.OFFEN, Status.NICHT_BESTANDEN] := by
  refine ⟨aktualisiere_status_eq, ?_, by decide, by decide⟩
  intro m w m' h
  unfold Modul.neue_pruefungsleistung at h
  split at h
  · exact absurd (congrArg Prod.snd h) (by simp)
  · split at h
    · exact absurd (congrArg Prod.snd h) (by simp)
    · have hm : m' = Modul.aktualisiere_status
          { m with pruefungsleistungen := _ } := (congrArg Prod.fst h).symm
      rw [hm, aktualisiere_status_eq, aktualisiere_status_pls]

theorem C1_statusregel_zeuge :
    ((Modul.neuesModul "Mathe" 5 1).neue_pruefungsleistung 3).1.status =
      statusVonNoten
        ((((Modul.neuesModul "Mathe" 5 1).neue_pruefungsleistung
            3).1).pruefungsleistungen.map (·.note)) :=
  C1_statusregel.2.1 (Modul.neuesModul "Mathe" 5 1) 3 _ (by decide)

/-! ## C2: attempt capacity and append semantics -/

/-- C2: with three (or more) attempts already present,
`neue_pruefungsleistung` raises the capacity error and leaves the module
(attempts and status) unchanged; below the capacity and with an in-range
score it appends exactly one attempt numbered count + 1 at the end of the
list and recomputes the status. -/
theorem C2_kapazitaet (m : Modul) (w : ℚ) :
    (3 ≤ m.pruefungsleistungen.length →
      m.neue_pruefungsleistung w = (m, some kapazitaetFehler))
    ∧ (m.pruefungsleistungen.length < 3 → 1 ≤ w → w ≤ 5 →
      m.neue_pruefungsleistung w =
        (Modul.aktualisiere_status
          { m with pruefungsleistungen := m.pruefungsleistungen ++
              [⟨w, m.pruefungsleistungen.length + 1, none⟩] }, none)) := by
  constructor
  · intro h3
    unfold Modul.neue_pruefungsleistung
    simp [h3]
  · intro hlt h1 h5
    unfold Modul.neue_pruefungsleistung
    rw [if_neg (by omega)]
    unfold Pruefungsleistung.neu
    rw [if_pos ⟨h1, h5⟩]

/-- A module that already holds three failed attempts. -/
def modulVoll : Modul :=
  { titel := "Mathe", ects := 5, status := Status.OFFEN,
    geplantes_semester := 1,
    pruefungsleistungen := [⟨5, 1, none⟩, ⟨5, 2, none⟩, ⟨5, 3, none⟩],
    id := none }

theorem C2_kapazitaet_zeuge :
    modulVoll.neue_pruefungsleistung 2 = (modulVoll, some kapazitaetFehler)
    ∧ (Modul.neuesModul "Mathe" 5 1).neue_pruefungsleistung 2 =
        (Modul.aktualisiere_status
          { Modul.neuesModul "Mathe" 5 1 with
              pruefungsleistungen := [⟨2, 1, none⟩] }, none) :=
  ⟨(C2_kapazitaet modulVoll 2).1 (by decide),
   (C2_kapazitaet (Modul.neuesModul "Mathe" 5 1) 2).2
     (by decide) (by norm_num) (by norm_num)⟩

/-! ## C5: score validation -/

/-- C5: constructing an attempt with an out-of-range score fails with the
validation error, an in-range construction stores exactly that score,
`setze_note` re-validates and on failure leaves the object unchanged, the
score range [1.0, 5.0] is preserved by every construction and setter
outcome, and an attempt passes exactly when its score is ≤ 4.0. -/
theorem C5_notenvalidierung (w : ℚ) (n : ℤ) (pl : Pruefungsleistung)
    (w' : ℚ) :
    (¬ (1 ≤ w ∧ w ≤ 5) → Pruefungsleistung.neu w n = .error noteFehler)
    ∧ (1 ≤ w ∧ w ≤ 5 → Pruefungsleistung.neu w n = .ok ⟨w, n, none⟩)
    ∧ (∀ pl', Pruefungsleistung.neu w n = .ok pl' →
        1 ≤ pl'.note ∧ pl'.note ≤ 5)
    ∧ (¬ (1 ≤ w' ∧ w' ≤ 5) → pl.setze_note w' = (pl, some noteFehler))
    ∧ (1 ≤ w' ∧ w' ≤ 5 → pl.setze_note w' = ({ pl with note := w' }, none))
    ∧ (1 ≤ pl.note ∧ pl.note ≤ 5 →
        1 ≤ (pl.setze_note w').1.note ∧ (pl.setze_note w').1.note ≤ 5)
    ∧ (pl.ist_bestanden = true ↔ pl.note ≤ 4) := by
  refine ⟨?_, ?_, ?_, ?_, ?_, ?_, ?_⟩
  · intro h; unfold Pruefungsleistung.neu; rw [if_neg h]
  · intro h; unfold Pruefungsleistung.neu; rw [if_pos h]
  · intro pl' h
    unfold Pruefungsleistung.neu at h
    split at h
    · cases h; simpa using ‹1 ≤ w ∧ w ≤ 5›
    · cases h
  · intro h; unfold Pruefungsleistung.setze_note; rw [if_neg h]
  · intro h; unfold Pruefungsleistung.setze_note; rw [if_pos h]
  · intro h
    unfold Pruefungsleistung.setze_note
    split
    · simpa using ‹1 ≤ w' ∧ w' ≤ 5›
    · simpa using h
  · simp [Pruefungsleistung.ist_bestanden]

theorem C5_notenvalidierung_zeuge :
    Pruefungsleistung.neu 6 1 = .error noteFehler ∧
    Pruefungsleistung.neu 3 1 = .ok ⟨3, 1, none⟩ :=
  ⟨(C5_notenvalidierung 6 1 ⟨3, 1, none⟩ 3).1 (by norm_num),
   (C5_notenvalidierung 3 1 ⟨3, 1, none⟩ 3).2.1 (by norm_num)⟩

/-! ## C8: duration of a completed session

The claim states the duration is `floor((end − start) in seconds / 60)`
for every pair of times including `end ≤ start`. Python `int()` truncates
toward zero, so for a negative difference the code disagrees with the
floor: start 14:00:00, end 13:58:30 gives −90 seconds, `int(-1.5) = -1`,
while the floor is −2. -/

theorem C8_dauer_gegenbeispiel :
    ¬ ((Lernsession.neu 0 50400 50310 none).tatsaechliche_dauer =
        Int.fdiv ((Lernsession.neu 0 50400 50310 none).end_zeit -
          (Lernsession.neu 0 50400 50310 none).start_zeit) 60) := by
  decide

/-- C8 (amended): the duration stored at construction is
`(end − start) in seconds / 60` truncated toward zero (Python `int()`),
`dauer()` returns exactly that value, the truncation coincides with the
claimed floor whenever start ≤ end, and the 14:00–15:30 example gives 90
minutes. -/
theorem C8_dauer (datum start ende : ℤ) (mid : Option ℤ) :
    (Lernsession.neu datum start ende mid).tatsaechliche_dauer =
        (ende - start).tdiv 60
    ∧ (Lernsession.neu datum start ende mid).dauer =
        (Lernsession.neu datum start ende mid).tatsaechliche_dauer
    ∧ (start ≤ ende →
        (Lernsession.neu datum start ende mid).tatsaechliche_dauer =
          Int.fdiv (ende - start) 60)
    ∧ (Lernsession.neu 0 50400 55800 none).dauer = 90 := by
  refine ⟨rfl, rfl, ?_, by decide⟩
  intro h
  show (ende - start).tdiv 60 = Int.fdiv (ende - start) 60
  rw [Int.tdiv_eq_ediv (by omega) (by norm_num),
    Int.fdiv_eq_ediv _ (by norm_num)]

theorem C8_dauer_zeuge :
    (Lernsession.neu 0 50400 55800 none).tatsaechliche_dauer =
      Int.fdiv (55800 - 50400) 60 :=
  (C8_dauer 0 50400 55800 none).2.2.1 (by norm_num)

/-! ## C9: the stored duration is not re-derived on mutation

The claim (from spec §3) says `actual_duration_minutes` is re-derived
whenever start or end changes. `Lernsession` computes it in `__init__`
only; `start_zeit` and `end_zeit` are plain attributes, so a later
assignment leaves the stored duration stale. -/

theorem C9_dauer_gegenbeispiel :
    ¬ (((Lernsession.neu 0 50400 55800 none).set_start_zeit
          54000).tatsaechliche_dauer =
        (((Lernsession.neu 0 50400 55800 none).set_start_zeit 54000).end_zeit -
          ((Lernsession.neu 0 50400 55800 none).set_start_zeit
            54000).start_zeit).tdiv 60) := by
  decide

/-- C9 (amended): `tatsaechliche_dauer` is derived from start and end
once, at construction; assigning a new `start_zeit` or `end_zeit`
afterwards leaves the stored duration unchanged (stale) — it is not
re-derived on mutation. -/
theorem C9_keine_neuberechnung (s : Lernsession) (t : ℤ)
    (datum start ende : ℤ) (mid : Option ℤ) :
    (s.set_start_zeit t).tatsaechliche_dauer = s.tatsaechliche_dauer
    ∧ (s.set_end_zeit t).tatsaechliche_dauer = s.tatsaechliche_dauer
    ∧ (Lernsession.neu datum start ende mid).tatsaechliche_dauer =
        berechneDauer start ende :=
  ⟨rfl, rfl, rfl⟩

/-! ## C10: study-effort aggregation -/

theorem foldl_aufwand (p : ZeitEintrag → Prop) [DecidablePred p]
    (l : List ZeitEintrag) (a : ℤ) :
    l.foldl (fun g s => if p s then g + s.dauer else g) a =
      a + ((l.filter (fun e => decide (p e))).map ZeitEintrag.dauer).sum := by
  induction l generalizing a with
  | nil => simp
  | cons e rest ih =>
      by_cases h : p e <;> simp [h, ih, add_assoc]

/-- C10: `berechne_aufwand` sums `dauer()` over exactly the entries whose
`modul_id` equals the module's `id`, with no check of the entry variant:
a module without a persistent id matches exactly the entries whose
reference is also absent (Python `None == None`), and a planned session
(Lerntermin) with a matching reference contributes its planned duration. -/
theorem C10_aufwand (m : Modul) (eintraege : List ZeitEintrag) :
    m.berechne_aufwand eintraege =
      ((eintraege.filter (fun e => e.modul_id = m.id)).map
        ZeitEintrag.dauer).sum
    ∧ (m.id = none →
        m.berechne_aufwand eintraege =
          ((eintraege.filter (fun e => e.modul_id = none)).map
            ZeitEintrag.dauer).sum)
    ∧ (∀ t : Lerntermin, t.modul_id = m.id →
        m.berechne_aufwand (eintraege ++ [ZeitEintrag.termin t]) =
          m.berechne_aufwand eintraege + t.geplante_dauer) := by
  have hbasis : ∀ l : List ZeitEintrag, m.berechne_aufwand l =
      ((l.filter (fun e => e.modul_id = m.id)).map ZeitEintrag.dauer).sum := by
    intro l
    unfold Modul.berechne_aufwand
    rw [foldl_aufwand, zero_add]
  refine ⟨hbasis eintraege, ?_, ?_⟩
  · intro hnone
    rw [hbasis eintraege, hnone]
  · intro t ht
    rw [hbasis, hbasis, List.filter_append]
    simp [ZeitEintrag.modul_id, ht, ZeitEintrag.dauer]

theorem C10_aufwand_zeuge :
    (Modul.neuesModul "Mathe" 5 1).berechne_aufwand
        [ZeitEintrag.termin ⟨0, 0, 45, "Lesen", none, none⟩,
         ZeitEintrag.session (Lernsession.neu 0 50400 55800 (some 7)),
         ZeitEintrag.session (Lernsession.neu 0 50400 55800 none)] =
      45 + 90 := by
  have h := (C10_aufwand (Modul.neuesModul "Mathe" 5 1)
      [ZeitEintrag.termin ⟨0, 0, 45, "Lesen", none, none⟩,
       ZeitEintrag.session (Lernsession.neu 0 50400 55800 (some 7)),
       ZeitEintrag.session (Lernsession.neu 0 50400 55800 none)]).2.1 rfl
  rw [h]
  decide

/-! ## C7: semester grade average -/

/-- The most recent attempt's score of a module (the claim's reading; the
fallback attempt is irrelevant for modules with at least one attempt). -/
def letzteNote (m : Modul) : ℚ :=
  (m.pruefungsleistungen.getLastD ⟨1, 1, none⟩).note

/-- The scores entering a semester average per the claim: most recent
score of each module planned for this semester and passed. -/
def notenVon (sem : Semester) (module : List Modul) : List ℚ :=
  (module.filter (fun m =>
    decide (m.geplantes_semester = sem.nummer) && m.ist_bestanden)).map
    letzteNote

theorem foldl_noten (sem : Semester) (l : List Modul) (acc : List ℚ)
    (h : ∀ m ∈ l, m.geplantes_semester = sem.nummer →
      m.ist_bestanden = true → m.pruefungsleistungen ≠ []) :
    l.foldl
      (fun noten m =>
        if m.geplantes_semester = sem.nummer ∧ m.ist_bestanden then
          match m.pruefungsleistungen.getLast? with
          | some pl => noten ++ [pl.note]
          | none => noten
        else noten) acc =
      acc ++ notenVon sem l := by
  induction l generalizing acc with
  | nil => simp [notenVon]
  | cons m rest ih =>
      have hrest := fun m hm => h m (List.mem_cons_of_mem _ hm)
      by_cases hc : m.geplantes_semester = sem.nummer ∧ m.ist_bestanden
      · have hne := h m (List.mem_cons_self m rest) hc.1 hc.2
        cases hg : m.pruefungsleistungen.getLast? with
        | none =>
            exact absurd (List.getLast?_eq_none_iff.mp hg) hne
        | some pl =>
            have hnote : letzteNote m = pl.note := by
              unfold letzteNote
              rw [List.getLastD_eq_getLast?, hg, Option.getD_some]
            simp only [List.foldl_cons, if_pos hc, hg, ih _ hrest, notenVon,
              List.filter_cons, hc.1, hc.2, Bool.and_self,
              List.map_cons, hnote]
            simp [hnote]
      · simp only [List.foldl_cons, if_neg hc, ih _ hrest, notenVon,
          List.filter_cons]
        have hfalse : (decide (m.geplantes_semester = sem.nummer) &&
            m.ist_bestanden) = false := by
          rcases Decidable.not_and_iff_or_not.mp hc with h1 | h1 <;>
            simp_all
        rw [hfalse]
        simp

/-- C7: under the (implicit) well-formedness that passed modules carry at
least one attempt, `berechne_notendurchschnitt` returns the rounded
arithmetic mean of the most recent scores of the passed modules planned
for this semester, and the sentinel 0.0 when that set is empty; with no
passed module at all the result is always the sentinel (the total
embedding also witnesses that the computation never raises). -/
theorem C7_durchschnitt (sem : Semester) (module : List Modul) :
    ((∀ m ∈ module, m.geplantes_semester = sem.nummer →
        m.ist_bestanden = true → m.pruefungsleistungen ≠ []) →
      sem.berechne_notendurchschnitt module =
        if notenVon sem module = [] then 0
        else pyRound2 ((notenVon sem module).sum /
          (notenVon sem module).length))
    ∧ ((∀ m ∈ module, m.ist_bestanden = false) →
      sem.berechne_notendurchschnitt module = 0) := by
  constructor
  · intro h
    unfold Semester.berechne_notendurchschnitt
    rw [foldl_noten sem module [] h, List.nil_append]
  · intro h
    unfold Semester.berechne_notendurchschnitt
    rw [foldl_noten sem module [] (fun m hm _ hb => absurd (h m hm) (by
      simp [hb])), List.nil_append]
    have : notenVon sem module = [] := by
      unfold notenVon
      rw [List.filter_eq_nil_iff.mpr (fun m hm => by simp [h m hm]),
        List.map_nil]
    simp [this]

/-- A passed module whose most recent score is 2.0. -/
def modulBestanden1 : Modul :=
  ⟨"Mathe", 5, Status.BESTANDEN, 1, [⟨2, 1, none⟩], none⟩

/-- A passed module whose most recent score is 3.0 (after one failure). -/
def modulBestanden2 : Modul :=
  ⟨"Prog", 5, Status.BESTANDEN, 1, [⟨5, 1, none⟩, ⟨3, 2, none⟩], none⟩

theorem C7_durchschnitt_zeuge :
    Semester.berechne_notendurchschnitt ⟨1, ⟨2024, 10, 1⟩, ⟨2025, 3, 31⟩, none⟩
      [modulBestanden1, modulBestanden2] = 5 / 2 := by
  have h := (C7_durchschnitt ⟨1, ⟨2024, 10, 1⟩, ⟨2025, 3, 31⟩, none⟩
    [modulBestanden1, modulBestanden2]).1 (by decide)
  rw [h]
  have hnoten : notenVon ⟨1, ⟨2024, 10, 1⟩, ⟨2025, 3, 31⟩, none⟩
      [modulBestanden1, modulBestanden2] = [2, 3] := rfl
  rw [hnoten, if_neg (by decide)]
  have h250 : ([(2 : ℚ), 3].sum / ([(2 : ℚ), 3].length : ℚ)) * 100 = 250 := by
    norm_num
  simp only [pyRound2, roundHalfEven, ratFloor, h250,
    Rat.num_ofNat, Rat.den_ofNat]
  norm_num

/-! ## C6: semester generation -/

/-- Modelled on the spec wording (§4.5): the cursor exactly 6 calendar
months later, rolling the year over when the month exceeds 12; the
day-of-month of the cursor is kept. -/
def sechsMonateSpaeter (d : Datum) : Datum :=
  if 12 < d.month + 6 then ⟨d.year + 1, d.month + 6 - 12, d.day⟩
  else ⟨d.year, d.month + 6, d.day⟩

/-- Semester list described by the claim: semester `i` starts at the
running cursor and ends the day before the next cursor, which lies 6
calendar months later. -/
def semesterSpec : ℕ → ℤ → Datum → List Semester
  | 0, _, _ => []
  | n + 1, i, cur =>
      let next := sechsMonateSpaeter cur
      ⟨i, cur, next.vortag, none⟩ :: semesterSpec n (i + 1) next

theorem rolloverJahrAux_von_le (fuel : ℕ) (jahr monat : ℤ)
    (h : monat ≤ 12) :
    rolloverJahrAux fuel jahr monat = (jahr, monat) := by
  cases fuel with
  | zero => rfl
  | succ f =>
      unfold rolloverJahrAux
      rw [if_neg (by omega)]

theorem rolloverJahr_von_le (jahr monat : ℤ) (h : monat ≤ 12) :
    rolloverJahr jahr monat = (jahr, monat) :=
  rolloverJahrAux_von_le _ _ _ h

theorem rolloverJahr_von_gt (jahr monat : ℤ) (h : 12 < monat)
    (h2 : monat ≤ 24) :
    rolloverJahr jahr monat = (jahr + 1, monat - 12) := by
  unfold rolloverJahr
  have hfuel : monat.toNat = (monat.toNat - 1) + 1 := by omega
  rw [hfuel]
  unfold rolloverJahrAux
  rw [if_pos h, rolloverJahrAux_von_le _ _ _ (by omega)]

theorem tageImMonat_ge (y m : ℤ) : 28 ≤ tageImMonat y m := by
  unfold tageImMonat
  split_ifs <;> norm_num

theorem sechsMonateSpaeter_gueltig (cur : Datum) (hg : cur.gueltig)
    (htag : cur.day ≤ 28) (hy : cur.year + 1 ≤ 9999) :
    (sechsMonateSpaeter cur).gueltig ∧ (sechsMonateSpaeter cur).day ≤ 28 ∧
      (sechsMonateSpaeter cur).year ≤ cur.year + 1 := by
  obtain ⟨hy1, hy2, hm1, hm2, hd1, hd2⟩ := hg
  unfold sechsMonateSpaeter Datum.gueltig
  have h28a := tageImMonat_ge (cur.year + 1) (cur.month + 6 - 12)
  have h28b := tageImMonat_ge cur.year (cur.month + 6)
  split_ifs with hroll <;> dsimp only <;>
    exact ⟨⟨by omega, by omega, by omega, by omega, by omega, by omega⟩,
      htag, by omega⟩

theorem replaceJM_ok (cur : Datum) (hg : cur.gueltig) (htag : cur.day ≤ 28)
    (hy : cur.year + 1 ≤ 9999) :
    cur.replaceJM (rolloverJahr cur.year (cur.month + 6)).1
      (rolloverJahr cur.year (cur.month + 6)).2 =
      .ok (sechsMonateSpaeter cur) := by
  obtain ⟨hy1, hy2, hm1, hm2, hd1, hd2⟩ := hg
  by_cases hroll : 12 < cur.month + 6
  · rw [rolloverJahr_von_gt _ _ hroll (by omega)]
    dsimp only
    have h28 := tageImMonat_ge (cur.year + 1) (cur.month + 6 - 12)
    unfold Datum.replaceJM
    rw [if_neg (by omega), if_neg (by omega), if_neg (by omega)]
    unfold sechsMonateSpaeter
    rw [if_pos hroll]
  · rw [rolloverJahr_von_le _ _ (by omega)]
    dsimp only
    have h28 := tageImMonat_ge cur.year (cur.month + 6)
    unfold Datum.replaceJM
    rw [if_neg (by omega), if_neg (by omega), if_neg (by omega)]
    unfold sechsMonateSpaeter
    rw [if_neg hroll]

theorem generiereSemesterAux_ok (n : ℕ) (i : ℤ) (cur : Datum)
    (hg : cur.gueltig) (htag : cur.day ≤ 28)
    (hjahr : cur.year + n ≤ 9999) :
    generiereSemesterAux n i cur = (semesterSpec n i cur, none) := by
  induction n generalizing i cur with
  | zero => rfl
  | succ n ih =>
      have hy1 : cur.year + 1 ≤ 9999 := by omega
      obtain ⟨hgnext, htagnext, hynext⟩ :=
        sechsMonateSpaeter_gueltig cur hg htag hy1
      have hrec := ih (i + 1) (sechsMonateSpaeter cur) hgnext htagnext
        (by omega)
      simp only [generiereSemesterAux, replaceJM_ok cur hg htag hy1, hrec,
        semesterSpec]

theorem semesterSpec_laenge (n : ℕ) (i : ℤ) (cur : Datum) :
    (semesterSpec n i cur).length = n := by
  induction n generalizing i cur with
  | zero => rfl
  | succ n ih => simp [semesterSpec, ih]

/-- Contiguous run of `n` integers starting at `i`: `i, i+1, …, i+n−1`. -/
def nummernAb (i : ℤ) : ℕ → List ℤ
  | 0 => []
  | n + 1 => i :: nummernAb (i + 1) n

theorem semesterSpec_nummern (n : ℕ) (i : ℤ) (cur : Datum) :
    (semesterSpec n i cur).map (·.nummer) = nummernAb i n := by
  induction n generalizing i cur with
  | zero => rfl
  | succ n ih => simp only [semesterSpec, List.map_cons, ih, nummernAb]

/-- Claimed for every start date, semester generation actually raises a
`ValueError` from `datetime.replace` when the 6-month step lands on a
short month: start 2023-08-30 with duration 1 produces an error and no
semester instead of the claimed one semester. -/
theorem C6_semester_gegenbeispiel :
    (Studiengang.generiere_semester
        ⟨"Informatik", 1, 2, [], [], none⟩ ⟨2023, 8, 30⟩).2 =
      some "day is out of range for month"
    ∧ ¬ ((Studiengang.generiere_semester
        ⟨"Informatik", 1, 2, [], [], none⟩ ⟨2023, 8, 30⟩).1.semester_liste.length
          = 1) := by
  decide

/-- C6 (amended): for every valid start date whose day-of-month is at
most 28 (so that every 6-month step is a valid date — for day 29–31
`datetime.replace` can raise, see the counterexample) and whose year
leaves room for the generated span, `generiere_semester` succeeds and
replaces the semester list with exactly `regelstudienzeit` semesters
numbered contiguously from 1, each starting at the running cursor, the
next cursor exactly 6 calendar months later with year rollover, and each
end date the day before the next cursor (as described by
`semesterSpec`); the 2024-10-01 example is instantiated in the witness. -/
theorem C6_semestergenerierung (sg : Studiengang) (start : Datum)
    (hg : start.gueltig) (htag : start.day ≤ 28)
    (hjahr : start.year + sg.regelstudienzeit.toNat ≤ 9999) :
    sg.generiere_semester start =
      ({ sg with semester_liste :=
          semesterSpec sg.regelstudienzeit.toNat 1 start }, none)
    ∧ (sg.generiere_semester start).1.semester_liste.length =
        sg.regelstudienzeit.toNat
    ∧ (sg.generiere_semester start).1.semester_liste.map (·.nummer) =
        nummernAb 1 sg.regelstudienzeit.toNat := by
  have haux := generiereSemesterAux_ok sg.regelstudienzeit.toNat 1 start
    hg htag hjahr
  unfold Studiengang.generiere_semester
  rw [haux]
  exact ⟨rfl, semesterSpec_laenge _ _ _, semesterSpec_nummern _ _ _⟩

theorem C6_semestergenerierung_zeuge :
    (Studiengang.generiere_semester
        ⟨"Informatik", 6, 2, [], [], none⟩ ⟨2024, 10, 1⟩).1.semester_liste =
        semesterSpec 6 1 ⟨2024, 10, 1⟩
    ∧ semesterSpec 6 1 ⟨2024, 10, 1⟩ =
        ⟨1, ⟨2024, 10, 1⟩, ⟨2025, 3, 31⟩, none⟩ ::
          ⟨2, ⟨2025, 4, 1⟩, ⟨2025, 9, 30⟩, none⟩ ::
            (semesterSpec 4 3 ⟨2025, 10, 1⟩) := by
  constructor
  · have h := (C6_semestergenerierung ⟨"Informatik", 6, 2, [], [], none⟩
      ⟨2024, 10, 1⟩ (by decide) (by decide) (by decide)).1
    rw [h]
    rfl
  · decide

/-! ## C4: the aggregate save skips already-persisted attempts -/

/-- Number of attempts still lacking a persisted identity. -/
def anzahlNeu : List Pruefungsleistung → ℕ
  | [] => 0
  | pl :: rest => (if pl.id = none then 1 else 0) + anzahlNeu rest

/-- Rows inserted for a module's attempt list: one row per attempt without
an identity, with consecutive fresh row ids starting at `n`; attempts
already carrying an identity contribute nothing. -/
def neuePlZeilen (modId n : ℤ) : List Pruefungsleistung → List PLRow
  | [] => []
  | pl :: rest =>
      match pl.id with
      | some _ => neuePlZeilen modId n rest
      | none => ⟨n, pl.note, pl.versuchs_nummer, modId⟩ ::
          neuePlZeilen modId (n + 1) rest

/-- In-memory attempt list after a save: attempts without an identity
receive the consecutive fresh ids starting at `n`. -/
def plMitIds (n : ℤ) : List Pruefungsleistung → List Pruefungsleistung
  | [] => []
  | pl :: rest =>
      match pl.id with
      | some _ => pl :: plMitIds n rest
      | none => { pl with id := some n } :: plMitIds (n + 1) rest

theorem pruefungsleistungenEinfuegen_spec (pls : List Pruefungsleistung)
    (modId : ℤ) (db : DB) :
    pruefungsleistungenEinfuegen modId pls db =
      (plMitIds db.nextPlId pls,
       { db with
           pruefungsleistungen := db.pruefungsleistungen ++
             neuePlZeilen modId db.nextPlId pls,
           nextPlId := db.nextPlId + anzahlNeu pls }) := by
  induction pls generalizing db with
  | nil => simp [pruefungsleistungenEinfuegen, neuePlZeilen, plMitIds,
      anzahlNeu]
  | cons pl rest ih =>
      cases hid : pl.id with
      | some i =>
          have hne : ¬ (pl.id = none) := by simp [hid]
          simp only [pruefungsleistungenEinfuegen, hid, ih, neuePlZeilen,
            plMitIds, anzahlNeu, if_neg hne]
          simp
      | none =>
          simp only [pruefungsleistungenEinfuegen, hid, ih, neuePlZeilen,
            plMitIds, anzahlNeu, if_pos rfl]
          simp only [Prod.mk.injEq, DB.mk.injEq, List.append_assoc,
            List.singleton_append, true_and, and_true]
          push_cast
          omega

theorem neuePlZeilen_set_note (l : List Pruefungsleistung) (modId n : ℤ)
    (j : ℕ) (pl : Pruefungsleistung) (i : ℤ) (x : ℚ)
    (hj : l[j]? = some pl) (hid : pl.id = some i) :
    neuePlZeilen modId n (l.set j { pl with note := x }) =
      neuePlZeilen modId n l := by
  induction l generalizing j n with
  | nil => simp at hj
  | cons kopf rest ih =>
      cases j with
      | zero =>
          simp only [List.getElem?_cons_zero, Option.some.injEq] at hj
          subst hj
          simp only [List.set_cons_zero, neuePlZeilen, hid]
      | succ j =>
          simp only [List.getElem?_cons_succ] at hj
          simp only [List.set_cons_succ, neuePlZeilen]
          cases kopf.id <;> simp [ih _ _ hj]

theorem anzahlNeu_set_note (l : List Pruefungsleistung) (j : ℕ)
    (pl : Pruefungsleistung) (i : ℤ) (x : ℚ)
    (hj : l[j]? = some pl) (hid : pl.id = some i) :
    anzahlNeu (l.set j { pl with note := x }) = anzahlNeu l := by
  induction l generalizing j with
  | nil => simp at hj
  | cons kopf rest ih =>
      cases j with
      | zero =>
          simp only [List.getElem?_cons_zero, Option.some.injEq] at hj
          subst hj
          simp [List.set_cons_zero, anzahlNeu, hid]
      | succ j =>
          simp only [List.getElem?_cons_succ] at hj
          simp [List.set_cons_succ, anzahlNeu, ih _ hj]

theorem modulRepoSpeichern_tabelle (m : Modul) (sgId : ℤ) (db : DB) :
    ∃ modId, ((modulRepoSpeichern m sgId db).2).pruefungsleistungen =
      db.pruefungsleistungen ++
        neuePlZeilen modId db.nextPlId m.pruefungsleistungen := by
  cases hid : m.id with
  | none =>
      refine ⟨db.nextModId, ?_⟩
      simp only [modulRepoSpeichern, hid, pruefungsleistungenEinfuegen_spec]
  | some i =>
      refine ⟨i, ?_⟩
      simp only [modulRepoSpeichern, hid, pruefungsleistungenEinfuegen_spec]

/-- C4: a module save appends to the attempt table exactly one fresh row
per attempt without a persisted identity (`neuePlZeilen`), leaving every
already-stored row in place; if every attempt already carries an identity
the table is untouched; and correcting the in-memory score of an
already-persisted attempt changes nothing about the stored state — the
correction is silently not persisted by the aggregate save path. -/
theorem C4_versuch_uebersprungen (m : Modul) (sgId : ℤ) (db : DB) :
    (∃ modId, ((modulRepoSpeichern m sgId db).1).id = some modId
      ∧ ((modulRepoSpeichern m sgId db).2).pruefungsleistungen =
          db.pruefungsleistungen ++
            neuePlZeilen modId db.nextPlId m.pruefungsleistungen
      ∧ ((modulRepoSpeichern m sgId db).1).pruefungsleistungen =
          plMitIds db.nextPlId m.pruefungsleistungen)
    ∧ (∀ r ∈ db.pruefungsleistungen,
        r ∈ ((modulRepoSpeichern m sgId db).2).pruefungsleistungen)
    ∧ ((∀ pl ∈ m.pruefungsleistungen, pl.id ≠ none) →
        ((modulRepoSpeichern m sgId db).2).pruefungsleistungen =
          db.pruefungsleistungen)
    ∧ (∀ (j : ℕ) (pl : Pruefungsleistung) (i : ℤ) (x : ℚ),
        m.pruefungsleistungen[j]? = some pl → pl.id = some i →
        (modulRepoSpeichern
            { m with pruefungsleistungen :=
                m.pruefungsleistungen.set j { pl with note := x } }
            sgId db).2 =
          (modulRepoSpeichern m sgId db).2) := by
  refine ⟨?_, ?_, ?_, ?_⟩
  · cases hid : m.id with
    | none =>
        refine ⟨db.nextModId, ?_⟩
        simp only [modulRepoSpeichern, hid,
          pruefungsleistungenEinfuegen_spec]
        refine ⟨?_, ?_, ?_⟩ <;> trivial
    | some i =>
        refine ⟨i, ?_⟩
        simp only [modulRepoSpeichern, hid,
          pruefungsleistungenEinfuegen_spec]
        refine ⟨?_, ?_, ?_⟩ <;> trivial
  · intro r hr
    obtain ⟨modId, htab⟩ := modulRepoSpeichern_tabelle m sgId db
    rw [htab]
    exact List.mem_append_left _ hr
  · intro halle
    have hkeine : ∀ (n : ℤ) (modId : ℤ) (l : List Pruefungsleistung),
        (∀ pl ∈ l, pl.id ≠ none) → neuePlZeilen modId n l = [] := by
      intro n modId l hl
      induction l generalizing n with
      | nil => rfl
      | cons pl rest ih =>
          cases hid : pl.id with
          | none => exact absurd hid (hl pl (List.mem_cons_self pl rest))
          | some i =>
              simp only [neuePlZeilen, hid]
              exact ih _ (fun q hq => hl q (List.mem_cons_of_mem _ hq))
    cases hid : m.id with
    | none =>
        simp only [modulRepoSpeichern, hid,
          pruefungsleistungenEinfuegen_spec]
        simp [hkeine _ _ _ halle]
    | some i =>
        simp only [modulRepoSpeichern, hid,
          pruefungsleistungenEinfuegen_spec]
        simp [hkeine _ _ _ halle]
  · intro j pl i x hj hid
    have hneu := neuePlZeilen_set_note m.pruefungsleistungen
    have hanz := anzahlNeu_set_note m.pruefungsleistungen j pl i x hj hid
    cases hmid : m.id with
    | none =>
        simp only [modulRepoSpeichern, hmid,
          pruefungsleistungenEinfuegen_spec]
        simp only [DB.mk.injEq, true_and, and_true]
        rw [hneu _ _ j pl i x hj hid, hanz]
        exact ⟨rfl, rfl⟩
    | some k =>
        simp only [modulRepoSpeichern, hmid,
          pruefungsleistungenEinfuegen_spec]
        simp only [DB.mk.injEq, true_and, and_true]
        rw [hneu _ _ j pl i x hj hid, hanz]
        exact ⟨rfl, rfl⟩

/-- A module carrying one persisted attempt (id 1, score 5.0) and one new
attempt; the persisted score has been corrected to 2.0 in memory. -/
def modulKorrigiert : Modul :=
  ⟨"Mathe", 5, Status.BESTANDEN, 1, [⟨2, 1, some 1⟩, ⟨3, 2, none⟩], some 1⟩

/-- Same module without the in-memory correction (stored score 5.0). -/
def modulUnkorrigiert : Modul :=
  ⟨"Mathe", 5, Status.BESTANDEN, 1, [⟨5, 1, some 1⟩, ⟨3, 2, none⟩], some 1⟩

/-- A store already holding the persisted attempt row (id 1, score 5.0). -/
def dbMitVersuch : DB :=
  { studiengaenge := [⟨1, "Inf", 6, 2⟩], semester := [],
    module := [⟨1, "Mathe", 5, "OFFEN", 1, 1⟩],
    pruefungsleistungen := [⟨1, 5, 1, 1⟩],
    nextSgId := 2, nextSemId := 1, nextModId := 2, nextPlId := 2 }

theorem C4_versuch_uebersprungen_zeuge :
    (modulRepoSpeichern modulKorrigiert 1 dbMitVersuch).2 =
      (modulRepoSpeichern modulUnkorrigiert 1 dbMitVersuch).2
    ∧ ((modulRepoSpeichern modulUnkorrigiert 1 dbMitVersuch).2).pruefungsleistungen
        = [⟨1, 5, 1, 1⟩, ⟨2, 3, 2, 1⟩] := by
  constructor
  · exact (C4_versuch_uebersprungen modulUnkorrigiert 1 dbMitVersuch).2.2.2
      0 ⟨5, 1, some 1⟩ 1 2 (by decide) (by decide)
  · decide

/-! ## C3: save/load round-trip on an empty store -/

/-- In-memory semester list after a save: consecutive ids from `n`. -/
def semMitIds (n : ℤ) : List Semester → List Semester
  | [] => []
  | s :: rest => { s with id := some n } :: semMitIds (n + 1) rest

/-- Semester rows inserted by a save: consecutive ids from `n`, owner
`sgId`. -/
def semZeilen (sgId n : ℤ) : List Semester → List SemRow
  | [] => []
  | s :: rest => ⟨n, s.nummer, s.start_datum, s.end_datum, sgId⟩ ::
      semZeilen sgId (n + 1) rest

/-- Total number of attempt rows inserted when saving these modules. -/
def gesamtNeu : List Modul → ℕ
  | [] => 0
  | m :: rest => anzahlNeu m.pruefungsleistungen + gesamtNeu rest

/-- In-memory module list after saving fresh modules: module ids from
`nm`, attempt ids assigned cumulatively from `np`. -/
def modMitIds (nm np : ℤ) : List Modul → List Modul
  | [] => []
  | m :: rest =>
      { m with id := some nm,
               pruefungsleistungen := plMitIds np m.pruefungsleistungen } ::
        modMitIds (nm + 1) (np + anzahlNeu m.pruefungsleistungen) rest

/-- Module rows inserted when saving fresh modules. -/
def modZeilen (sgId nm : ℤ) : List Modul → List ModRow
  | [] => []
  | m :: rest =>
      ⟨nm, m.titel, m.ects, m.status.value, m.geplantes_semester, sgId⟩ ::
        modZeilen sgId (nm + 1) rest

/-- Attempt rows inserted when saving fresh modules, grouped per module. -/
def plBloecke (nm np : ℤ) : List Modul → List PLRow
  | [] => []
  | m :: rest =>
      neuePlZeilen nm np m.pruefungsleistungen ++
        plBloecke (nm + 1) (np + anzahlNeu m.pruefungsleistungen) rest

theorem semesterEinfuegen_spec (sems : List Semester) (sgId : ℤ) (db : DB) :
    semesterEinfuegen sgId sems db =
      (semMitIds db.nextSemId sems,
       { db with
           semester := db.semester ++ semZeilen sgId db.nextSemId sems,
           nextSemId := db.nextSemId + sems.length }) := by
  induction sems generalizing db with
  | nil => simp [semesterEinfuegen, semMitIds, semZeilen]
  | cons s rest ih =>
      simp only [semesterEinfuegen, ih, semMitIds, semZeilen]
      simp only [Prod.mk.injEq, DB.mk.injEq, List.append_assoc,
        List.singleton_append, List.length_cons, true_and, and_true]
      push_cast
      omega

theorem moduleSpeichern_spec (mods : List Modul) (sgId : ℤ) (db : DB)
    (hfrisch : ∀ m ∈ mods, m.id = none) :
    moduleSpeichern sgId mods db =
      (modMitIds db.nextModId db.nextPlId mods,
       { db with
           module := db.module ++ modZeilen sgId db.nextModId mods,
           pruefungsleistungen := db.pruefungsleistungen ++
             plBloecke db.nextModId db.nextPlId mods,
           nextModId := db.nextModId + mods.length,
           nextPlId := db.nextPlId + gesamtNeu mods }) := by
  induction mods generalizing db with
  | nil => simp [moduleSpeichern, modMitIds, modZeilen, plBloecke, gesamtNeu]
  | cons m rest ih =>
      have hm : m.id = none := hfrisch m (List.mem_cons_self m rest)
      have ihh : ∀ dbx : DB, moduleSpeichern sgId rest dbx =
          (modMitIds dbx.nextModId dbx.nextPlId rest,
           { dbx with
               module := dbx.module ++ modZeilen sgId dbx.nextModId rest,
               pruefungsleistungen := dbx.pruefungsleistungen ++
                 plBloecke dbx.nextModId dbx.nextPlId rest,
               nextModId := dbx.nextModId + rest.length,
               nextPlId := dbx.nextPlId + gesamtNeu rest }) :=
        fun dbx => ih dbx (fun q hq => hfrisch q (List.mem_cons_of_mem _ hq))
      simp only [moduleSpeichern, modulRepoSpeichern, hm,
        pruefungsleistungenEinfuegen_spec, ihh, modMitIds, modZeilen,
        plBloecke, gesamtNeu]
      simp only [Prod.mk.injEq, DB.mk.injEq, List.append_assoc,
        List.singleton_append, List.length_cons, List.cons_append,
        true_and, and_true]
      refine ⟨rfl, ?_, ?_⟩ <;> (push_cast; omega)

theorem fuegeSortiertEin_kopf {α : Type} (key : α → ℤ) (a : α)
    (l : List α) (h : ∀ b ∈ l, key a ≤ key b) :
    fuegeSortiertEin key a l = a :: l := by
  cases l with
  | nil => rfl
  | cons b l =>
      unfold fuegeSortiertEin
      rw [if_pos (h b (List.mem_cons_self b l))]

theorem sortiereNach_sortiert {α : Type} (key : α → ℤ) (l : List α)
    (h : l.Pairwise (fun x y => key x ≤ key y)) :
    sortiereNach key l = l := by
  induction l with
  | nil => rfl
  | cons a l ih =>
      obtain ⟨ha, hl⟩ := List.pairwise_cons.mp h
      unfold sortiereNach
      rw [ih hl]
      exact fuegeSortiertEin_kopf key a l ha

theorem semZeilen_nummern (sgId n : ℤ) (sems : List Semester) :
    (semZeilen sgId n sems).map (·.nummer) = sems.map (·.nummer) := by
  induction sems generalizing n with
  | nil => rfl
  | cons s rest ih => simp [semZeilen, ih]

theorem semZeilen_sgid (sgId n : ℤ) (sems : List Semester) :
    ∀ r ∈ semZeilen sgId n sems, r.studiengang_id = sgId := by
  induction sems generalizing n with
  | nil => simp [semZeilen]
  | cons s rest ih =>
      intro r hr
      rcases List.mem_cons.mp hr with h | h
      · rw [h]
      · exact ih _ r h

theorem semZeilen_map (sgId n : ℤ) (sems : List Semester) :
    (semZeilen sgId n sems).map semAusZeile = semMitIds n sems := by
  induction sems generalizing n with
  | nil => rfl
  | cons s rest ih => simp [semZeilen, semMitIds, semAusZeile, ih]

theorem Status.fromValue_value (s : Status) :
    Status.fromValue s.value = some s := by
  cases s <;> rfl

theorem neuePlZeilen_modul_ids (modId n : ℤ) (pls : List Pruefungsleistung) :
    ∀ r ∈ neuePlZeilen modId n pls, r.modul_id = modId := by
  induction pls generalizing n with
  | nil => simp [neuePlZeilen]
  | cons pl rest ih =>
      intro r hr
      unfold neuePlZeilen at hr
      cases hid : pl.id with
      | some i =>
          rw [hid] at hr
          exact ih _ r hr
      | none =>
          rw [hid] at hr
          rcases List.mem_cons.mp hr with h | h
          · rw [h]
          · exact ih _ r h

theorem plBloecke_modul_ids (nm np : ℤ) (mods : List Modul) :
    ∀ r ∈ plBloecke nm np mods, nm ≤ r.modul_id := by
  induction mods generalizing nm np with
  | nil => simp [plBloecke]
  | cons m rest ih =>
      intro r hr
      unfold plBloecke at hr
      rcases List.mem_append.mp hr with h | h
      · rw [neuePlZeilen_modul_ids nm np m.pruefungsleistungen r h]
      · have := ih (nm + 1) (np + anzahlNeu m.pruefungsleistungen) r h
        omega

theorem modZeilen_sgid (sgId nm : ℤ) (mods : List Modul) :
    ∀ r ∈ modZeilen sgId nm mods, r.studiengang_id = sgId := by
  induction mods generalizing nm with
  | nil => simp [modZeilen]
  | cons m rest ih =>
      intro r hr
      rcases List.mem_cons.mp hr with h | h
      · rw [h]
      · exact ih _ r h

theorem neuePlZeilen_versuche (modId n : ℤ) (pls : List Pruefungsleistung)
    (hfrisch : ∀ pl ∈ pls, pl.id = none) :
    (neuePlZeilen modId n pls).map (·.versuchs_nummer) =
      pls.map (·.versuchs_nummer) := by
  induction pls generalizing n with
  | nil => rfl
  | cons pl rest ih =>
      have hid : pl.id = none := hfrisch pl (List.mem_cons_self pl rest)
      simp only [neuePlZeilen, hid, List.map_cons]
      rw [ih _ (fun q hq => hfrisch q (List.mem_cons_of_mem _ hq))]

theorem neuePlZeilen_mapM (modId n : ℤ) (pls : List Pruefungsleistung)
    (hfrisch : ∀ pl ∈ pls, pl.id = none)
    (hnoten : ∀ pl ∈ pls, 1 ≤ pl.note ∧ pl.note ≤ 5) :
    (neuePlZeilen modId n pls).mapM plAusZeile = some (plMitIds n pls) := by
  induction pls generalizing n with
  | nil => rfl
  | cons pl rest ih =>
      have hid : pl.id = none := hfrisch pl (List.mem_cons_self pl rest)
      have hnote := hnoten pl (List.mem_cons_self pl rest)
      have hrow : plAusZeile ⟨n, pl.note, pl.versuchs_nummer, modId⟩ =
          some { pl with id := some n } := by
        unfold plAusZeile Pruefungsleistung.neu
        rw [if_pos hnote]
      simp only [neuePlZeilen, hid, plMitIds, List.mapM_cons, hrow,
        ih _ (fun q hq => hfrisch q (List.mem_cons_of_mem _ hq))
          (fun q hq => hnoten q (List.mem_cons_of_mem _ hq))]
      rfl

theorem modZeilen_laden (mods : List Modul) (sgId : ℤ) (nm np : ℤ)
    (vor : List PLRow) (db : DB)
    (hdb : db.pruefungsleistungen = vor ++ plBloecke nm np mods)
    (hvor : ∀ r ∈ vor, r.modul_id < nm)
    (hfrisch : ∀ m ∈ mods, ∀ pl ∈ m.pruefungsleistungen, pl.id = none)
    (hnoten : ∀ m ∈ mods, ∀ pl ∈ m.pruefungsleistungen,
      1 ≤ pl.note ∧ pl.note ≤ 5)
    (hsort : ∀ m ∈ mods, m.pruefungsleistungen.Pairwise
      (fun a b => a.versuchs_nummer < b.versuchs_nummer)) :
    (modZeilen sgId nm mods).mapM (modulAusZeile db) =
      some (modMitIds nm np mods) := by
  induction mods generalizing nm np vor with
  | nil => rfl
  | cons m rest ih =>
      have hfm := hfrisch m (List.mem_cons_self m rest)
      have hnm := hnoten m (List.mem_cons_self m rest)
      have hsm := hsort m (List.mem_cons_self m rest)
      have hfilter : db.pruefungsleistungen.filter
          (fun p => decide (p.modul_id = nm)) =
          neuePlZeilen nm np m.pruefungsleistungen := by
        rw [hdb]
        show (vor ++ (neuePlZeilen nm np m.pruefungsleistungen ++
          plBloecke (nm + 1) (np + anzahlNeu m.pruefungsleistungen)
            rest)).filter _ = _
        rw [List.filter_append, List.filter_append]
        rw [List.filter_eq_nil_iff.mpr (fun r hr => by
          have := hvor r hr
          simp only [decide_eq_true_eq]
          omega)]
        rw [List.filter_eq_self.mpr (fun r hr => by
          simp only [decide_eq_true_eq]
          exact neuePlZeilen_modul_ids nm np m.pruefungsleistungen r hr)]
        rw [List.filter_eq_nil_iff.mpr (fun r hr => by
          have := plBloecke_modul_ids (nm + 1)
            (np + anzahlNeu m.pruefungsleistungen) rest r hr
          simp only [decide_eq_true_eq]
          omega)]
        simp
      have hsorted : sortiereNach (·.versuchs_nummer)
          (neuePlZeilen nm np m.pruefungsleistungen) =
          neuePlZeilen nm np m.pruefungsleistungen := by
        apply sortiereNach_sortiert
        have hmapeq := neuePlZeilen_versuche nm np m.pruefungsleistungen hfm
        have hple : (m.pruefungsleistungen.map (·.versuchs_nummer)).Pairwise
            (fun a b => a ≤ b) :=
          List.pairwise_map.mpr (hsm.imp (fun h => le_of_lt h))
        rw [← hmapeq] at hple
        exact List.pairwise_map.mp hple
      have hmodul : modulAusZeile db
          ⟨nm, m.titel, m.ects, m.status.value, m.geplantes_semester, sgId⟩ =
          some { m with id := some nm,
                        pruefungsleistungen :=
                          plMitIds np m.pruefungsleistungen } := by
        unfold modulAusZeile
        simp only [Status.fromValue_value, hfilter, hsorted,
          neuePlZeilen_mapM nm np m.pruefungsleistungen hfm hnm,
          Option.pure_def, Option.bind_eq_bind, Option.some_bind]
      have ihh := ih (nm + 1) (np + anzahlNeu m.pruefungsleistungen)
        (vor ++ neuePlZeilen nm np m.pruefungsleistungen)
        (by
          rw [hdb, List.append_assoc]
          rfl)
        (by
          intro r hr
          rcases List.mem_append.mp hr with h | h
          · have := hvor r h
            omega
          · have := neuePlZeilen_modul_ids nm np m.pruefungsleistungen r h
            omega)
        (fun q hq => hfrisch q (List.mem_cons_of_mem _ hq))
        (fun q hq => hnoten q (List.mem_cons_of_mem _ hq))
        (fun q hq => hsort q (List.mem_cons_of_mem _ hq))
      simp only [modZeilen, List.mapM_cons, hmodul, ihh, modMitIds,
        Option.pure_def, Option.bind_eq_bind, Option.some_bind]

/-- C3: saving a fresh, well-formed Program to an empty store and loading
returns exactly the saved Program: every field, the semesters (strictly
increasing sequence numbers, as generation produces them, so their sorted
order is their in-memory order), each module in insertion order, each
module's attempts in attempt-number order, and the identities assigned
during the save. The freshness hypotheses (no identity anywhere) say the
Program has never been persisted; the score-range hypothesis is the
invariant every attempt constructed through the model satisfies. -/
theorem C3_speichern_laden (sg : Studiengang)
    (hsgid : sg.id = none)
    (hmods : ∀ m ∈ sg.module, m.id = none)
    (hfrisch : ∀ m ∈ sg.module, ∀ pl ∈ m.pruefungsleistungen, pl.id = none)
    (hnoten : ∀ m ∈ sg.module, ∀ pl ∈ m.pruefungsleistungen,
      1 ≤ pl.note ∧ pl.note ≤ 5)
    (hsemsort : sg.semester_liste.Pairwise (fun a b => a.nummer < b.nummer))
    (hplsort : ∀ m ∈ sg.module, m.pruefungsleistungen.Pairwise
      (fun a b => a.versuchs_nummer < b.versuchs_nummer)) :
    dbLadenStudiengaenge (dbSpeichern sg DB.leer).2 =
      some [(dbSpeichern sg DB.leer).1] := by
  obtain ⟨name, rsz, ziel, sems, mods, sgid⟩ := sg
  simp only at hsgid hmods hfrisch hnoten hsemsort hplsort
  subst hsgid
  have hmodspec : ∀ dbx : DB, moduleSpeichern 1 mods dbx =
      (modMitIds dbx.nextModId dbx.nextPlId mods,
       { dbx with
           module := dbx.module ++ modZeilen 1 dbx.nextModId mods,
           pruefungsleistungen := dbx.pruefungsleistungen ++
             plBloecke dbx.nextModId dbx.nextPlId mods,
           nextModId := dbx.nextModId + mods.length,
           nextPlId := dbx.nextPlId + gesamtNeu mods }) :=
    fun dbx => moduleSpeichern_spec mods 1 dbx hmods
  have hsave : dbSpeichern ⟨name, rsz, ziel, sems, mods, none⟩ DB.leer =
      ({ name := name, regelstudienzeit := rsz, zielschnitt := ziel,
         semester_liste := semMitIds 1 sems,
         module := modMitIds 1 1 mods, id := some 1 },
       { studiengaenge := [⟨1, name, rsz, ziel⟩],
         semester := semZeilen 1 1 sems,
         module := modZeilen 1 1 mods,
         pruefungsleistungen := plBloecke 1 1 mods,
         nextSgId := 2,
         nextSemId := 1 + sems.length,
         nextModId := 1 + mods.length,
         nextPlId := 1 + gesamtNeu mods }) := by
    unfold dbSpeichern sgRepoSpeichern DB.leer
    simp only [semesterEinfuegen_spec, Option.getD_some, List.nil_append,
      List.filter_nil, hmodspec]
    rfl
  rw [hsave]
  have hsemzeilen : (semZeilen 1 1 sems).filter
      (fun s => decide (s.studiengang_id = 1)) =
      semZeilen 1 1 sems :=
    List.filter_eq_self.mpr (fun r hr => by
      simp only [decide_eq_true_eq]
      exact semZeilen_sgid 1 1 sems r hr)
  have hsemsortiert : sortiereNach (·.nummer)
      (semZeilen 1 1 sems) = semZeilen 1 1 sems := by
    apply sortiereNach_sortiert
    have hmapeq := semZeilen_nummern 1 1 sems
    have hple : (sems.map (·.nummer)).Pairwise
        (fun a b => a ≤ b) :=
      List.pairwise_map.mpr (hsemsort.imp (fun h => le_of_lt h))
    rw [← hmapeq] at hple
    exact List.pairwise_map.mp hple
  have hmodfilter : (modZeilen 1 1 mods).filter
      (fun r => decide (r.studiengang_id = 1)) = modZeilen 1 1 mods :=
    List.filter_eq_self.mpr (fun r hr => by
      simp only [decide_eq_true_eq]
      exact modZeilen_sgid 1 1 mods r hr)
  have hlade := modZeilen_laden mods 1 1 1 []
    { studiengaenge := [⟨1, name, rsz, ziel⟩],
      semester := semZeilen 1 1 sems,
      module := modZeilen 1 1 mods,
      pruefungsleistungen := plBloecke 1 1 mods,
      nextSgId := 2,
      nextSemId := 1 + sems.length,
      nextModId := 1 + mods.length,
      nextPlId := 1 + gesamtNeu mods }
    (by simp) (by simp) hfrisch hnoten hplsort
  unfold dbLadenStudiengaenge sgRepoLadenAlle
  simp only [List.map_cons, List.map_nil, List.mapM_cons, List.mapM_nil,
    hsemzeilen, hsemsortiert, semZeilen_map]
  unfold modulLadenFuer
  simp only [Option.getD_some, hmodfilter, hlade, Option.pure_def,
    Option.bind_eq_bind, Option.some_bind, Option.map_some]
  rfl

/-- The round-trip example of spec §8: a Program with 2 Semesters and 3
Modules, one of which holds 2 Attempts. -/
def sgBeispiel : Studiengang :=
  { name := "Informatik", regelstudienzeit := 2, zielschnitt := 2,
    semester_liste := [⟨1, ⟨2024, 10, 1⟩, ⟨2025, 3, 31⟩, none⟩,
                       ⟨2, ⟨2025, 4, 1⟩, ⟨2025, 9, 30⟩, none⟩],
    module := [⟨"Mathe", 5, Status.BESTANDEN, 1,
                 [⟨5, 1, none⟩, ⟨3, 2, none⟩], none⟩,
               ⟨"Prog", 10, Status.OFFEN, 1, [], none⟩,
               ⟨"BWL", 5, Status.OFFEN, 2, [], none⟩],
    id := none }

theorem C3_speichern_laden_zeuge :
    dbLadenStudiengaenge (dbSpeichern sgBeispiel DB.leer).2 =
      some [(dbSpeichern sgBeispiel DB.leer).1] :=
  C3_speichern_laden sgBeispiel (by decide) (by decide) (by decide)
    (by decide) (by decide) (by decide)

end Dashboard
